import Mathlib

/-!
Verification of the ESP8266_MPU6050_Seismometer server against its
natural-language specification.

The development shallowly embeds the two source files:

* `src/server/server.py` — the Flask ingestion endpoint `log_seismic`
  (`POST /api/seismic`): content-type check, payload validation, log-size
  gate, file append, and the post-append announcement formatting that can
  raise (the `{delta:.2f}` format).
* `src/server/dashboard.py` — the client-side consensus detection
  (`consensus_times` loop), the alias table attached to consensus rows,
  and the per-device Online/Offline computation.

Components of the repository that the spec describes but that are not in
the two source files (the server-side Device Registry, Correlation Window
Manager, `/api/status` heartbeat tracker and the `/api/events` reader) are
modelled from the spec; each such definition carries a doc comment
starting with `Modelled from the spec:`.

Conventions: timestamps handled as integers are in milliseconds; file
sizes are measured in characters of the modelled log string (the source
measures bytes — the records at issue are ASCII).
-/

namespace Seismo

/-! ## JSON values (the payload model)

`request.get_json()` yields Python objects; the fields the handler touches
are only ever strings, numbers, booleans or `None`, so those are the
constructors.  Numbers are modelled as rationals (Python floats/ints);
no arithmetic on them occurs in the source, only `str()` rendering and
`format(..., ".2f")`, which are modelled below. -/
inductive JValue where
  | str (s : String)
  | num (q : Rat)
  | bool (b : Bool)
  | null
deriving DecidableEq

/-- Python `str()` of a payload value, as used by the f-string
`f"{ts} level={level} deltaG={delta}\n"` in `log_seismic`. -/
def pyStr : JValue → String
  | .str s => s
  | .num q => toString q
  | .bool b => if b then "True" else "False"
  | .null => "None"

/-- Python `format(v, ".2f")` as used by `f"... Δg={delta:.2f}"`
(server.py line 188) and the announcement message (line 191): defined
(`some`) exactly for numbers and booleans (Python `bool` is an `int`),
and raising (`none`) for strings and `None` — `ValueError` /
`TypeError` respectively. -/
def formatFixed : JValue → Option String
  | .num q => some (toString q)
  | .bool b => some (if b then "1.00" else "0.00")
  | .str _ => none
  | .null => none

/-- An inbound `POST /api/seismic` request: `is_json` is Flask's
content-type test `request.is_json`; `body` is the result of
`request.get_json()` — `none` models a body that fails to parse
(`get_json` raises), `some data` a parsed JSON object given as an
association list. -/
structure Request where
  is_json : Bool
  body : Option (List (String × JValue))

/-- Server state touched by `log_seismic`: the events file contents and
the configured `MAX_LOG_BYTES`. -/
structure ServerState where
  logFile : String
  maxLogBytes : Nat
deriving DecidableEq

/-- Default of `MAX_LOG_BYTES = int(os.getenv("MAX_LOG_BYTES", 20 * 1024 * 1024))`
(server.py line 27). -/
def MAX_LOG_BYTES_default : Nat := 20 * 1024 * 1024

/-- The possible responses of `log_seismic`, one constructor per
`return` site of the handler. -/
inductive Resp where
  | contentTypeError   -- 400 {"error": "Content-Type must be application/json"}
  | invalidPayload     -- 400 {"error": "Invalid payload: 'level' and 'deltaG' required"}
  | skippedMaxSize     -- 200 {"status": "skipped", "reason": "max size reached"}
  | logged             -- 201 {"status": "logged"}
  | internalError      -- 500 {"error": "Internal server error", ...}
deriving DecidableEq

/-- HTTP status code of each response. -/
def Resp.code : Resp → Nat
  | .contentTypeError => 400
  | .invalidPayload => 400
  | .skippedMaxSize => 200
  | .logged => 201
  | .internalError => 500

/-- The log line built at server.py line 178:
`line = f"{ts} level={level} deltaG={delta}\n"` (with `ts` already
carrying the trailing `"Z"`). -/
def mkLine (ts : String) (level delta : JValue) : String :=
  ts ++ " level=" ++ pyStr level ++ " deltaG=" ++ pyStr delta ++ "\n"

/-- Shallow embedding of the `log_seismic` handler (server.py 161–201).
`nowIso` stands for `datetime.utcnow().isoformat()`.  Control flow,
line by line:
1. `if not request.is_json: return 400`;
2. `request.get_json()` — a parse failure raises and is caught by the
   handler's blanket `except`, returning 500;
3. missing `"level"` or `"deltaG"` key → 400;
4. size gate `os.path.getsize(LOG_FILE) >= MAX_LOG_BYTES` → 200 skipped,
   nothing written;
5. append the line;
6. `app.logger.info(f"... Δg={delta:.2f}")` — raises for non-numeric
   `delta` *after* the append, caught by the blanket `except` → 500.
   (`speak_text` swallows its own exceptions and mutates no server
   state, so it is a no-op here.)  Otherwise → 201 logged. -/
def log_seismic (nowIso : String) (req : Request) (st : ServerState) :
    Resp × ServerState :=
  if req.is_json = false then (.contentTypeError, st)
  else
    match req.body with
    | none => (.internalError, st)
    | some data =>
      match List.lookup "level" data, List.lookup "deltaG" data with
      | some level, some delta =>
        let ts := nowIso ++ "Z"
        let line := mkLine ts level delta
        if st.maxLogBytes ≤ st.logFile.length then (.skippedMaxSize, st)
        else
          let st' : ServerState := ⟨st.logFile ++ line, st.maxLogBytes⟩
          match formatFixed delta with
          | some _ => (.logged, st')
          | none => (.internalError, st')
      | some _, none => (.invalidPayload, st)
      | none, _ => (.invalidPayload, st)

/-! Basic unfolding lemmas for `log_seismic`, shared by the claim
theorems below. -/

theorem log_seismic_not_json (nowIso : String) (body : Option (List (String × JValue)))
    (st : ServerState) :
    log_seismic nowIso ⟨false, body⟩ st = (.contentTypeError, st) := by
  simp [log_seismic]

theorem log_seismic_valid (nowIso : String) (data : List (String × JValue))
    (st : ServerState) (level delta : JValue)
    (hl : List.lookup "level" data = some level)
    (hd : List.lookup "deltaG" data = some delta) :
    log_seismic nowIso ⟨true, some data⟩ st =
      if st.maxLogBytes ≤ st.logFile.length then (.skippedMaxSize, st)
      else
        match formatFixed delta with
        | some _ => (.logged, ⟨st.logFile ++ mkLine (nowIso ++ "Z") level delta, st.maxLogBytes⟩)
        | none => (.internalError, ⟨st.logFile ++ mkLine (nowIso ++ "Z") level delta, st.maxLogBytes⟩) := by
  simp [log_seismic, hl, hd]

theorem log_seismic_missing (nowIso : String) (data : List (String × JValue))
    (st : ServerState)
    (h : List.lookup "level" data = none ∨ List.lookup "deltaG" data = none) :
    log_seismic nowIso ⟨true, some data⟩ st = (.invalidPayload, st) := by
  rcases h with h | h
  · simp [log_seismic, h]
  · cases hl : List.lookup "level" data <;> simp [log_seismic, hl, h]

/-- C1 fails as stated: a JSON body that contains both `level` and
`deltaG` but whose `deltaG` is a string is appended to the log (size
below the maximum) and then answered with HTTP 500 — not the claimed
201 — because `f"... Δg={delta:.2f}"` raises after the write. -/
theorem claim_C1_counterexample :
    (List.lookup "level" [("level", JValue.str "minor"), ("deltaG", JValue.str "oops")]).isSome = true ∧
    (List.lookup "deltaG" [("level", JValue.str "minor"), ("deltaG", JValue.str "oops")]).isSome = true ∧
    ("" : String).length < 100 ∧
    (log_seismic "2025-01-01T00:00:00"
        ⟨true, some [("level", JValue.str "minor"), ("deltaG", JValue.str "oops")]⟩
        ⟨"", 100⟩).1.code = 500 ∧
    ¬ (log_seismic "2025-01-01T00:00:00"
        ⟨true, some [("level", JValue.str "minor"), ("deltaG", JValue.str "oops")]⟩
        ⟨"", 100⟩).1.code = 201 := by
  decide

/-- C1 (amended): for every JSON request containing `level` and a
`deltaG` that supports numeric formatting, with the log below the size
limit, exactly one newline-terminated record is appended — the
server-assigned timestamp followed by the supplied `level` and `deltaG`
rendered unchanged — and the response is 201 `{status:"logged"}`. -/
theorem claim_C1 (nowIso : String) (data : List (String × JValue))
    (st : ServerState) (level delta : JValue) (f : String)
    (hl : List.lookup "level" data = some level)
    (hd : List.lookup "deltaG" data = some delta)
    (hfmt : formatFixed delta = some f)
    (hsz : st.logFile.length < st.maxLogBytes) :
    log_seismic nowIso ⟨true, some data⟩ st =
      (.logged, ⟨st.logFile ++ mkLine (nowIso ++ "Z") level delta, st.maxLogBytes⟩) ∧
    mkLine (nowIso ++ "Z") level delta =
      nowIso ++ "Z" ++ " level=" ++ pyStr level ++ " deltaG=" ++ pyStr delta ++ "\n" ∧
    Resp.logged.code = 201 := by
  refine ⟨?_, rfl, rfl⟩
  rw [log_seismic_valid nowIso data st level delta hl hd, if_neg (by omega), hfmt]

/-- Witness for the amended C1 at a concrete request. -/
theorem claim_C1_witness :
    ("" : String).length < 100 ∧
    log_seismic "2025-01-01T00:00:00"
        ⟨true, some [("level", JValue.str "minor"), ("deltaG", JValue.num 1)]⟩
        ⟨"", 100⟩ =
      (.logged, ⟨"" ++ mkLine ("2025-01-01T00:00:00" ++ "Z") (JValue.str "minor") (JValue.num 1), 100⟩) :=
  ⟨by decide,
    (claim_C1 "2025-01-01T00:00:00" [("level", JValue.str "minor"), ("deltaG", JValue.num 1)]
      ⟨"", 100⟩ (JValue.str "minor") (JValue.num 1) "1"
      (by decide) (by decide) (by decide) (by decide)).1⟩

/-- C3: once the log file size has reached the configured maximum, a
valid ingestion request is answered 200 `{status:"skipped", reason:"max
size reached"}` — not an error status — with the state (hence the file)
unchanged; the default threshold is 20 MiB. -/
theorem claim_C3 (nowIso : String) (data : List (String × JValue))
    (st : ServerState) (level delta : JValue)
    (hl : List.lookup "level" data = some level)
    (hd : List.lookup "deltaG" data = some delta)
    (hsz : st.maxLogBytes ≤ st.logFile.length) :
    log_seismic nowIso ⟨true, some data⟩ st = (.skippedMaxSize, st) ∧
    Resp.skippedMaxSize.code = 200 ∧
    MAX_LOG_BYTES_default = 20 * 1024 * 1024 := by
  refine ⟨?_, rfl, rfl⟩
  rw [log_seismic_valid nowIso data st level delta hl hd, if_pos hsz]

/-- Witness for C3 at a concrete full store. -/
theorem claim_C3_witness :
    (4 : Nat) ≤ ("full" : String).length ∧
    log_seismic "2025-01-01T00:00:00"
        ⟨true, some [("level", JValue.str "minor"), ("deltaG", JValue.num 1)]⟩
        ⟨"full", 4⟩ = (.skippedMaxSize, ⟨"full", 4⟩) :=
  ⟨by decide,
    (claim_C3 "2025-01-01T00:00:00" [("level", JValue.str "minor"), ("deltaG", JValue.num 1)]
      ⟨"full", 4⟩ (JValue.str "minor") (JValue.num 1)
      (by decide) (by decide) (by decide)).1⟩

/-- C9: a JSON body containing `level` and a `deltaG` that does not
support numeric formatting (e.g. a string) is appended to the log first
and only then answered HTTP 500: the store is mutated on the
internal-error path. -/
theorem claim_C9 (nowIso : String) (data : List (String × JValue))
    (st : ServerState) (level delta : JValue)
    (hl : List.lookup "level" data = some level)
    (hd : List.lookup "deltaG" data = some delta)
    (hfmt : formatFixed delta = none)
    (hsz : st.logFile.length < st.maxLogBytes) :
    log_seismic nowIso ⟨true, some data⟩ st =
      (.internalError, ⟨st.logFile ++ mkLine (nowIso ++ "Z") level delta, st.maxLogBytes⟩) ∧
    Resp.internalError.code = 500 := by
  refine ⟨?_, rfl⟩
  rw [log_seismic_valid nowIso data st level delta hl hd, if_neg (by omega), hfmt]

/-- Witness for C9: string-valued `deltaG` is stored, then 500. -/
theorem claim_C9_witness :
    formatFixed (JValue.str "abc") = none ∧
    log_seismic "2025-01-01T00:00:00"
        ⟨true, some [("level", JValue.str "severe"), ("deltaG", JValue.str "abc")]⟩
        ⟨"", 100⟩ =
      (.internalError, ⟨"" ++ mkLine ("2025-01-01T00:00:00" ++ "Z") (JValue.str "severe") (JValue.str "abc"), 100⟩) :=
  ⟨by decide,
    (claim_C9 "2025-01-01T00:00:00" [("level", JValue.str "severe"), ("deltaG", JValue.str "abc")]
      ⟨"", 100⟩ (JValue.str "severe") (JValue.str "abc")
      (by decide) (by decide) (by decide) (by decide)).1⟩

/-- C10: whenever the keys `level` and `deltaG` are present in the JSON
body, neither 400 branch is reachable — no check of `level` against the
three severities exists — and (below the size limit) the values are
stored verbatim whatever their type. -/
theorem claim_C10 (nowIso : String) (data : List (String × JValue))
    (st : ServerState) (level delta : JValue)
    (hl : List.lookup "level" data = some level)
    (hd : List.lookup "deltaG" data = some delta) :
    (log_seismic nowIso ⟨true, some data⟩ st).1.code ≠ 400 ∧
    (st.logFile.length < st.maxLogBytes →
      (log_seismic nowIso ⟨true, some data⟩ st).2.logFile =
        st.logFile ++ mkLine (nowIso ++ "Z") level delta) := by
  rw [log_seismic_valid nowIso data st level delta hl hd]
  constructor
  · split
    · simp [Resp.code]
    · cases hfmt : formatFixed delta <;> simp [Resp.code]
  · intro hsz
    rw [if_neg (by omega)]
    cases hfmt : formatFixed delta <;> simp

/-- Witness for C10: `level` and `deltaG` both `null` are accepted by
validation (no 400) and stored verbatim as `None`. -/
theorem claim_C10_witness :
    ¬ (log_seismic "2025-01-01T00:00:00"
        ⟨true, some [("level", JValue.null), ("deltaG", JValue.null)]⟩
        ⟨"", 100⟩).1.code = 400 ∧
    (log_seismic "2025-01-01T00:00:00"
        ⟨true, some [("level", JValue.null), ("deltaG", JValue.null)]⟩
        ⟨"", 100⟩).2.logFile =
      "" ++ mkLine ("2025-01-01T00:00:00" ++ "Z") JValue.null JValue.null :=
  have h := claim_C10 "2025-01-01T00:00:00" [("level", JValue.null), ("deltaG", JValue.null)]
    ⟨"", 100⟩ JValue.null JValue.null (by decide) (by decide)
  ⟨h.1, h.2 (by decide)⟩

/-- C7 (code bug): the handler stores neither the reporting device's
identifier nor an alias, and no `"unknown"` sentinel exists.  At the
concrete request `{"id": "node1", "level": "minor", "deltaG": 1}` the
appended record is exactly `"<ts> level=minor deltaG=1\n"`, which
contains neither `node1` nor `unknown`; moreover the handler's result is
identical whatever value is bound to `"id"` (the field is never read).
The repository's own dashboard (`dashboard.py` lines 121, 153) reads
`id` and `alias` fields from stored events, so the spec reflects the
intended record shape. -/
theorem claim_C7_code_bug :
    (log_seismic "2025-01-01T00:00:00"
        ⟨true, some [("id", JValue.str "node1"), ("level", JValue.str "minor"), ("deltaG", JValue.num 1)]⟩
        ⟨"", 100⟩).2.logFile = "2025-01-01T00:00:00Z level=minor deltaG=1\n" ∧
    ¬ ("node1".data <:+: ("2025-01-01T00:00:00Z level=minor deltaG=1\n").data) ∧
    ¬ ("unknown".data <:+: ("2025-01-01T00:00:00Z level=minor deltaG=1\n").data) ∧
    ∀ (idv : JValue) (nowIso : String) (st : ServerState) (rest : List (String × JValue)),
      ("id" ∈ rest.map Prod.fst → False) →
      log_seismic nowIso ⟨true, some (("id", idv) :: rest)⟩ st =
        log_seismic nowIso ⟨true, some rest⟩ st := by
  refine ⟨by decide, by decide, by decide, ?_⟩
  intro idv nowIso st rest _
  have h1 : ("level" == "id") = false := by decide
  have h2 : ("deltaG" == "id") = false := by decide
  simp [log_seismic, List.lookup, h1, h2]

/-! ## Spec-modelled ingestion pipeline

The spec's Device Registry (§4.2), Correlation Window Manager admission
(§4.4) and the ingestion wiring that touches them (§4.5) belong to a
server revision that is not among the source files; they are modelled
here from the spec's words so that the claims about ingestion-side
bookkeeping can be stated. -/

/-- Update an association list at a key, overwriting any prior value
(used for the registry's `last_seen`). -/
def setA (m : List (String × Int)) (k : String) (v : Int) : List (String × Int) :=
  match m with
  | [] => [(k, v)]
  | (k', v') :: rest => if k' = k then (k, v) :: rest else (k', v') :: setA rest k v

theorem lookup_setA (m : List (String × Int)) (k : String) (v : Int) :
    List.lookup k (setA m k v) = some v := by
  induction m with
  | nil => simp [setA]
  | cons p rest ih =>
    obtain ⟨k', v'⟩ := p
    by_cases h : k' = k
    · simp [setA, h]
    · have hbeq : (k == k') = false := beq_eq_false_iff_ne.mpr (fun hh => h hh.symm)
      simp [setA, if_neg h, List.lookup, hbeq, ih]

/-- Modelled from the spec: Device Registry `resolve(device_id)` (§4.2)
— "returns the alias for a known device; if the identifier has never
been seen, registers it with an empty alias and returns that". -/
def resolve (reg : List (String × String)) (id : String) : String × List (String × String) :=
  match List.lookup id reg with
  | some a => (a, reg)
  | none => ("", reg ++ [(id, "")])

/-- Modelled from the spec: Correlation Window Manager admission (§4.4)
— an arriving event opens a window (`opened_at = now`,
`members = {device_id}`) when none is open, and otherwise joins the open
window's members without extending it. -/
def joinWindow (w : Option (Int × List String)) (now : Int) (id : String) :
    Option (Int × List String) :=
  match w with
  | none => some (now, [id])
  | some (o, ms) => some (o, if ms.contains id then ms else ms ++ [id])

/-- Member set of the (possibly absent) open window. -/
def windowMembers : Option (Int × List String) → List String
  | none => []
  | some (_, ms) => ms

theorem mem_windowMembers_joinWindow (w : Option (Int × List String)) (now : Int) (id : String) :
    id ∈ windowMembers (joinWindow w now id) := by
  match w with
  | none => simp [joinWindow, windowMembers]
  | some (o, ms) =>
    simp only [joinWindow, windowMembers]
    by_cases h : ms.contains id
    · rw [if_pos h]
      simpa using h
    · rw [if_neg h]
      simp

/-- Modelled from the spec: the full state owned by the core — Event
Store log, Device Registry (alias table and `last_seen`), and the single
in-memory correlation window (§3 data model). -/
structure CoreState where
  log : String
  maxBytes : Nat
  registry : List (String × String)
  lastSeen : List (String × Int)
  window : Option (Int × List String)
deriving DecidableEq

/-- Modelled from the spec: the reporting device identifier of a
payload — "an optional device identifier (defaults to a literal
`unknown` sentinel if omitted)" (§4.5). -/
def reqId (data : List (String × JValue)) : String :=
  match List.lookup "id" data with
  | some (.str s) => s
  | _ => "unknown"

/-- Modelled from the spec: the stored RawEvent record, carrying the
server timestamp, the device id and the alias snapshot alongside the
caller-supplied fields (§3). -/
def mkLineId (ts id al level deltaS : String) : String :=
  ts ++ " id=" ++ id ++ " alias=" ++ al ++ " level=" ++ level ++ " deltaG=" ++ deltaS ++ "\n"

/-- Ingestion acknowledgments of the spec-modelled pipeline (§4.5). -/
inductive IngestAck where
  | logged
  | skipped
  | badRequest
deriving DecidableEq

/-- Modelled from the spec: the Ingestion API (§4.5), whose Device
Registry and Correlation Window Manager parts are not among the source
files.  On a valid report it resolves the alias, stamps the server
timestamp, appends the RawEvent unless the store is at capacity, updates
`last_seen` and adds the device to the active window; validation
failure mutates nothing. -/
def ingest (now : Int) (nowIso : String) (req : Request) (st : CoreState) :
    IngestAck × CoreState :=
  if req.is_json = false then (.badRequest, st)
  else
    match req.body with
    | none => (.badRequest, st)
    | some data =>
      match List.lookup "level" data, List.lookup "deltaG" data with
      | some level, some delta =>
        let id := reqId data
        let (al, reg') := resolve st.registry id
        let line := mkLineId (nowIso ++ "Z") id al (pyStr level) (pyStr delta)
        let (ack, log') :=
          if st.maxBytes ≤ st.log.length then (IngestAck.skipped, st.log)
          else (IngestAck.logged, st.log ++ line)
        (ack, ⟨log', st.maxBytes, reg', setA st.lastSeen id now, joinWindow st.window now id⟩)
      | some _, none => (.badRequest, st)
      | none, _ => (.badRequest, st)

/-- C6: when the store rejects the append because the size limit is
reached, ingestion-side bookkeeping still happens — `last_seen` is
updated to the request time and the device is added to the active
correlation window — and only the durable write is skipped. -/
theorem claim_C6 (now : Int) (nowIso : String) (data : List (String × JValue))
    (st : CoreState) (level delta : JValue)
    (hl : List.lookup "level" data = some level)
    (hd : List.lookup "deltaG" data = some delta)
    (hsz : st.maxBytes ≤ st.log.length) :
    (ingest now nowIso ⟨true, some data⟩ st).1 = .skipped ∧
    (ingest now nowIso ⟨true, some data⟩ st).2.log = st.log ∧
    List.lookup (reqId data) (ingest now nowIso ⟨true, some data⟩ st).2.lastSeen = some now ∧
    reqId data ∈ windowMembers (ingest now nowIso ⟨true, some data⟩ st).2.window := by
  have hstep : ingest now nowIso ⟨true, some data⟩ st =
      (.skipped, ⟨st.log, st.maxBytes, (resolve st.registry (reqId data)).2,
        setA st.lastSeen (reqId data) now, joinWindow st.window now (reqId data)⟩) := by
    simp [ingest, hl, hd, if_pos hsz]
  rw [hstep]
  exact ⟨rfl, rfl, lookup_setA _ _ _, mem_windowMembers_joinWindow _ _ _⟩

/-- Witness for C6 at a concrete full store. -/
theorem claim_C6_witness :
    (4 : Nat) ≤ ("full" : String).length ∧
    (ingest 7 "T" ⟨true, some [("id", JValue.str "esp1"), ("level", JValue.str "minor"), ("deltaG", JValue.num 1)]⟩
      ⟨"full", 4, [], [], none⟩).1 = .skipped ∧
    List.lookup "esp1"
      (ingest 7 "T" ⟨true, some [("id", JValue.str "esp1"), ("level", JValue.str "minor"), ("deltaG", JValue.num 1)]⟩
        ⟨"full", 4, [], [], none⟩).2.lastSeen = some 7 :=
  have h := claim_C6 7 "T" [("id", JValue.str "esp1"), ("level", JValue.str "minor"), ("deltaG", JValue.num 1)]
    ⟨"full", 4, [], [], none⟩ (JValue.str "minor") (JValue.num 1)
    (by decide) (by decide) (by decide)
  ⟨by decide, h.1, by
    have := h.2.2.1
    simpa [reqId] using this⟩

/-- C4: a request that is not JSON, or whose JSON body lacks `level` or
`deltaG`, is answered 400 with no state mutation: the source handler
returns its state argument untouched (no append), and in the
spec-modelled pipeline the registry (`last_seen`) and window are equally
untouched. -/
theorem claim_C4 :
    (∀ (nowIso : String) (body : Option (List (String × JValue))) (st : ServerState),
      log_seismic nowIso ⟨false, body⟩ st = (.contentTypeError, st) ∧
      Resp.contentTypeError.code = 400) ∧
    (∀ (nowIso : String) (data : List (String × JValue)) (st : ServerState),
      (List.lookup "level" data = none ∨ List.lookup "deltaG" data = none) →
      log_seismic nowIso ⟨true, some data⟩ st = (.invalidPayload, st) ∧
      Resp.invalidPayload.code = 400) ∧
    (∀ (now : Int) (nowIso : String) (body : Option (List (String × JValue))) (st : CoreState),
      ingest now nowIso ⟨false, body⟩ st = (.badRequest, st)) ∧
    (∀ (now : Int) (nowIso : String) (data : List (String × JValue)) (st : CoreState),
      (List.lookup "level" data = none ∨ List.lookup "deltaG" data = none) →
      ingest now nowIso ⟨true, some data⟩ st = (.badRequest, st)) := by
  refine ⟨fun nowIso body st => ⟨log_seismic_not_json nowIso body st, rfl⟩,
    fun nowIso data st h => ⟨log_seismic_missing nowIso data st h, rfl⟩,
    fun now nowIso body st => by simp [ingest],
    fun now nowIso data st h => ?_⟩
  rcases h with h | h
  · simp [ingest, h]
  · cases hl : List.lookup "level" data <;> simp [ingest, hl, h]

/-- Witness for C4 at a concrete body missing `deltaG`. -/
theorem claim_C4_witness :
    log_seismic "T" ⟨true, some [("level", JValue.str "minor")]⟩ ⟨"", 100⟩ =
      (.invalidPayload, ⟨"", 100⟩) ∧
    ingest 0 "T" ⟨true, some [("level", JValue.str "minor")]⟩ ⟨"", 100, [], [], none⟩ =
      (.badRequest, ⟨"", 100, [], [], none⟩) :=
  ⟨(claim_C4.2.1 "T" [("level", JValue.str "minor")] ⟨"", 100⟩ (Or.inr (by decide))).1,
    claim_C4.2.2.2 0 "T" [("level", JValue.str "minor")] ⟨"", 100, [], [], none⟩
      (Or.inr (by decide))⟩

/-! ## Events and per-device status

Event rows as the dashboard sees them (`df` rows with an `id` and a
timestamp).  Timestamps are integer milliseconds. -/

structure Ev where
  id : String
  ts : Int
deriving DecidableEq

/-- `df.groupby("id")["timestamp"].max().get(device)` (dashboard.py
line 209): the most recent timestamp among the device's events, absent
when the device has none. -/
def lastTs (evs : List Ev) (dev : String) : Option Int :=
  ((evs.filter (fun e => e.id == dev)).map Ev.ts).max?

/-- The dashboard's per-device status (dashboard.py 211–218):
`"Online" if (now - lt).total_seconds() <= 5*60 else "Offline"`, and
`"Offline"` when the device has no recorded timestamp. -/
def dashStatus (evs : List Ev) (now : Int) (dev : String) : String :=
  match lastTs evs dev with
  | none => "Offline"
  | some lt => if now - lt ≤ 5 * 60 * 1000 then "Online" else "Offline"

/-- Modelled from the spec: the Heartbeat/Status Tracker (§4.3) — the
server-side `/api/status` implementation is not among the source files.
`status(device_id, now, heartbeat_interval)` returns Online if
`now - last_seen <= 2 * heartbeat_interval`, else Offline, and Offline
when the device has no recorded `last_seen`. -/
def status_spec (lastSeen : Option Int) (now hb : Int) : String :=
  match lastSeen with
  | none => "Offline"
  | some ls => if now - ls ≤ 2 * hb then "Online" else "Offline"

/-- C5: a device is Online iff `now - last_seen ≤ 2 * heartbeat_interval`
(inclusive at the boundary, Offline one second beyond), a device with no
recorded `last_seen` is Offline, and the dashboard's hardcoded 5-minute
rule is exactly this tracker at a 150-second heartbeat interval. -/
theorem claim_C5 :
    (∀ ls now hb : Int, status_spec (some ls) now hb = "Online" ↔ now - ls ≤ 2 * hb) ∧
    (∀ ls now hb : Int, now - ls = 2 * hb → status_spec (some ls) now hb = "Online") ∧
    (∀ ls now hb : Int, now - ls = 2 * hb + 1000 → status_spec (some ls) now hb = "Offline") ∧
    (∀ now hb : Int, status_spec none now hb = "Offline") ∧
    (∀ (evs : List Ev) (now : Int) (dev : String),
      dashStatus evs now dev = status_spec (lastTs evs dev) now (150 * 1000)) := by
  refine ⟨fun ls now hb => ?_, fun ls now hb h => ?_, fun ls now hb h => ?_,
    fun now hb => rfl, fun evs now dev => ?_⟩
  · by_cases h : now - ls ≤ 2 * hb <;> simp [status_spec, h]
  · simp [status_spec, h]
  · rw [status_spec, if_neg (by omega)]
  · cases h : lastTs evs dev <;> simp [dashStatus, status_spec, h]

/-- Witness for C5 at the boundary: `last_seen` exactly `2 * hb` in the
past is Online, `2 * hb` plus one second in the past is Offline. -/
theorem claim_C5_witness :
    status_spec (some 0) 300000 150000 = "Online" ∧
    status_spec (some 0) 301000 150000 = "Offline" :=
  ⟨claim_C5.2.1 0 300000 150000 (by norm_num),
    claim_C5.2.2.1 0 301000 150000 (by norm_num)⟩

/-! ## Client-side consensus detection (dashboard.py 151–173)

The dashboard walks the events sorted by timestamp; for each event it
forms the window `[ev.timestamp, ev.timestamp + 2s]`, collects the ids
reporting inside it, and if the full id roster is covered appends the
window's maximal timestamp to `consensus_times` unless it equals the
last appended one.  Durations are in milliseconds (2 s = 2000). -/

/-- `df_window[(ts >= window_start) & (ts <= window_end)]` — the events
inside a closed window. -/
def windowEvents (all : List Ev) (s e : Int) : List Ev :=
  all.filter (fun x => decide (s ≤ x.ts) && decide (x.ts ≤ e))

/-- `df_window['id'].unique().tolist()` — ids in first-occurrence
order. -/
def uniqueIds (evs : List Ev) : List String :=
  evs.foldl (fun acc e => if acc.contains e.id then acc else acc ++ [e.id]) []

/-- One iteration of the dashboard loop (dashboard.py 155–166): if the
roster is a subset of the ids seen in the event's 2-second window,
compute `ts_c = max(window timestamps)` and append it unless it equals
`consensus_times[-1]`.  (`max` of the window never fails in the source:
the window contains the event itself; the `none` arm is dead.) -/
def consensusStep (all : List Ev) (roster : List String) (acc : List Int) (ev : Ev) :
    List Int :=
  if roster.all (fun d => ((windowEvents all ev.ts (ev.ts + 2000)).map Ev.id).contains d) then
    match ((windowEvents all ev.ts (ev.ts + 2000)).map Ev.ts).max? with
    | some tsC => if acc = [] ∨ ¬ acc.getLast? = some tsC then acc ++ [tsC] else acc
    | none => acc
  else acc

/-- `consensus_times` (dashboard.py 154–166): fold of the step over the
events in timestamp order (`sort_values('timestamp')`). -/
def consensusTimes (all : List Ev) : List Int :=
  (List.insertionSort (fun a b => a.ts ≤ b.ts) all).foldl
    (consensusStep all (uniqueIds all)) []

/-- `fetch_statuses().get(dev, {}).get('alias') or dev` (dashboard.py
line 171): the alias from the status API, falling back to the id when
missing or empty (Python falsy). -/
def aliasOf (statuses : String → Option String) (dev : String) : String :=
  match statuses dev with
  | some a => if a = "" then dev else a
  | none => dev

/-- `consensus_df` with its `Devices` column (dashboard.py 168–173):
every consensus row carries the aliases of the full id roster. -/
def consensusDevices (all : List Ev) (statuses : String → Option String) :
    List (Int × List String) :=
  (consensusTimes all).map (fun t => (t, (uniqueIds all).map (aliasOf statuses)))

/-- `List.max?` on integers is the maximum in the usual sense. -/
theorem int_max?_iff {xs : List Int} {a : Int} :
    xs.max? = some a ↔ a ∈ xs ∧ ∀ b ∈ xs, b ≤ a := by
  haveI : Std.Antisymm (fun x1 x2 : Int => x1 ≤ x2) :=
    ⟨by intro a b h h'; exact le_antisymm h h'⟩
  exact List.max?_eq_some_iff le_refl max_choice (fun _ _ _ => max_le_iff)

theorem uniqueIds_aux (evs : List Ev) (acc : List String) :
    ∀ d ∈ evs.foldl (fun acc e => if acc.contains e.id then acc else acc ++ [e.id]) acc,
      d ∈ acc ∨ ∃ e ∈ evs, e.id = d := by
  induction evs generalizing acc with
  | nil => intro d hd; exact Or.inl hd
  | cons e rest ih =>
    intro d hd
    rw [List.foldl_cons] at hd
    rcases ih _ d hd with h | ⟨e', he', hid⟩
    · by_cases hc : acc.contains e.id
      · rw [if_pos hc] at h; exact Or.inl h
      · rw [if_neg hc] at h
        rcases List.mem_append.mp h with h | h
        · exact Or.inl h
        · exact Or.inr ⟨e, List.mem_cons_self e rest, (by simpa using h : d = e.id).symm⟩
    · exact Or.inr ⟨e', List.mem_cons_of_mem e he', hid⟩

/-- Every id in the roster comes from some event. -/
theorem mem_uniqueIds (evs : List Ev) :
    ∀ d ∈ uniqueIds evs, ∃ e ∈ evs, e.id = d := by
  intro d hd
  rcases uniqueIds_aux evs [] d hd with h | h
  · simp at h
  · exact h

theorem windowEvents_eq_self {all : List Ev} {s e : Int}
    (h : ∀ x ∈ all, s ≤ x.ts ∧ x.ts ≤ e) : windowEvents all s e = all :=
  List.filter_eq_self.mpr fun x hx => by
    simp only [Bool.and_eq_true, decide_eq_true_eq]
    exact h x hx

theorem windowEvents_eq_nil {all : List Ev} {s e : Int}
    (h : ∀ x ∈ all, ¬(s ≤ x.ts ∧ x.ts ≤ e)) : windowEvents all s e = [] :=
  List.filter_eq_nil_iff.mpr fun x hx => by
    simp only [Bool.and_eq_true, decide_eq_true_eq]
    exact h x hx

theorem windowEvents_append (b1 b2 : List Ev) (s e : Int) :
    windowEvents (b1 ++ b2) s e = windowEvents b1 s e ++ windowEvents b2 s e :=
  List.filter_append _ _

/-- Any event's window inside a trace of diameter at most 2 s sees the
trace's global maximal timestamp as its own maximum. -/
theorem window_max {all : List Ev} {tm : Int} (ev : Ev) (hev : ev ∈ all)
    (hdiam : ∀ e1 ∈ all, ∀ e2 ∈ all, e2.ts - e1.ts ≤ 2000)
    (hm : (all.map Ev.ts).max? = some tm) :
    ((windowEvents all ev.ts (ev.ts + 2000)).map Ev.ts).max? = some tm := by
  obtain ⟨htm_mem, htm_bound⟩ := int_max?_iff.mp hm
  obtain ⟨em, hem, hemts⟩ := List.mem_map.mp htm_mem
  apply int_max?_iff.mpr
  refine ⟨?_, ?_⟩
  · refine List.mem_map.mpr ⟨em, ?_, hemts⟩
    refine List.mem_filter.mpr ⟨hem, ?_⟩
    have h1 : ev.ts ≤ tm := htm_bound ev.ts (List.mem_map_of_mem Ev.ts hev)
    have h2 : em.ts - ev.ts ≤ 2000 := hdiam ev hev em hem
    simp only [Bool.and_eq_true, decide_eq_true_eq]
    omega
  · intro b hb
    obtain ⟨x, hx, hxts⟩ := List.mem_map.mp hb
    have hx_all : x ∈ all := List.mem_of_mem_filter hx
    have := htm_bound x.ts (List.mem_map_of_mem Ev.ts hx_all)
    omega

/-- A step whose window maximum equals the last recorded consensus time
leaves the accumulator unchanged (the deduplication branch). -/
theorem consensusStep_dedup {all : List Ev} {roster : List String} {acc : List Int}
    {ev : Ev} {t : Int}
    (hmax : ((windowEvents all ev.ts (ev.ts + 2000)).map Ev.ts).max? = some t)
    (hlast : acc.getLast? = some t) :
    consensusStep all roster acc ev = acc := by
  have hne : acc ≠ [] := fun hnil => by simp [hnil] at hlast
  by_cases h : roster.all
      (fun d => ((windowEvents all ev.ts (ev.ts + 2000)).map Ev.id).contains d) = true
  · rw [consensusStep, if_pos h, hmax]
    show (if acc = [] ∨ ¬ acc.getLast? = some t then acc ++ [t] else acc) = acc
    simp [hne, hlast]
  · rw [consensusStep, if_neg h]

/-- A step whose roster check passes and whose window maximum is new
appends it. -/
theorem consensusStep_append {all : List Ev} {roster : List String} {acc : List Int}
    {ev : Ev} {t : Int}
    (hpass : roster.all
      (fun d => ((windowEvents all ev.ts (ev.ts + 2000)).map Ev.id).contains d) = true)
    (hmax : ((windowEvents all ev.ts (ev.ts + 2000)).map Ev.ts).max? = some t)
    (hlast : acc = [] ∨ ¬ acc.getLast? = some t) :
    consensusStep all roster acc ev = acc ++ [t] := by
  rw [consensusStep, if_pos hpass, hmax]
  show (if acc = [] ∨ ¬ acc.getLast? = some t then acc ++ [t] else acc) = acc ++ [t]
  rw [if_pos hlast]

/-- Folding further events whose window maximum is the last recorded
time changes nothing. -/
theorem foldl_consensusStep_const {all : List Ev} {roster : List String} {t : Int}
    {acc : List Int} (hlast : acc.getLast? = some t) (evs : List Ev)
    (H : ∀ ev ∈ evs, ((windowEvents all ev.ts (ev.ts + 2000)).map Ev.ts).max? = some t) :
    evs.foldl (consensusStep all roster) acc = acc := by
  induction evs with
  | nil => rfl
  | cons e rest ih =>
    rw [List.foldl_cons, consensusStep_dedup (H e (List.mem_cons_self e rest)) hlast]
    exact ih fun ev hev => H ev (List.mem_cons_of_mem e hev)

/-- The roster check passes whenever the window covers the roster. -/
theorem roster_pass {roster : List String} {wl : List Ev}
    (hcov : ∀ d ∈ roster, ∃ e ∈ wl, e.id = d) :
    roster.all (fun d => (wl.map Ev.id).contains d) = true := by
  apply List.all_eq_true.mpr
  intro d hd
  obtain ⟨e, he, hid⟩ := hcov d hd
  have : d ∈ wl.map Ev.id := List.mem_map.mpr ⟨e, he, hid⟩
  simpa using this

/-- A sorted nonempty trace that fits inside one 2-second span yields
exactly one consensus time: its maximal timestamp. -/
theorem consensus_one_burst (all : List Ev) (tm : Int)
    (hne : all ≠ [])
    (hsorted : List.Sorted (fun a b : Ev => a.ts ≤ b.ts) all)
    (hdiam : ∀ e1 ∈ all, ∀ e2 ∈ all, e2.ts - e1.ts ≤ 2000)
    (hm : (all.map Ev.ts).max? = some tm) :
    consensusTimes all = [tm] := by
  obtain ⟨e0, rest, rfl⟩ := List.exists_cons_of_ne_nil hne
  rw [consensusTimes, List.Sorted.insertionSort_eq hsorted, List.foldl_cons]
  have hwin0 : windowEvents (e0 :: rest) e0.ts (e0.ts + 2000) = e0 :: rest := by
    apply windowEvents_eq_self
    intro x hx
    refine ⟨?_, ?_⟩
    · rcases List.mem_cons.mp hx with rfl | hx'
      · exact le_refl _
      · exact (List.pairwise_cons.mp hsorted).1 x hx'
    · have := hdiam e0 (List.mem_cons_self e0 rest) x hx
      omega
  have hpass0 : (uniqueIds (e0 :: rest)).all
      (fun d => ((windowEvents (e0 :: rest) e0.ts (e0.ts + 2000)).map Ev.id).contains d)
      = true := by
    rw [hwin0]
    exact roster_pass (mem_uniqueIds _)
  have hmax0 : ((windowEvents (e0 :: rest) e0.ts (e0.ts + 2000)).map Ev.ts).max?
      = some tm := by
    rw [hwin0]; exact hm
  rw [consensusStep_append hpass0 hmax0 (Or.inl rfl), List.nil_append]
  exact foldl_consensusStep_const (show ([tm] : List Int).getLast? = some tm from rfl) rest
    (fun ev hev => window_max ev (List.mem_cons_of_mem e0 hev) hdiam hm)

/-- Two full-roster bursts separated by more than the window length
yield exactly two consensus times: each burst's maximal timestamp. -/
theorem consensus_two_burst (b1 b2 : List Ev) (tm1 tm2 : Int)
    (h1 : b1 ≠ []) (h2 : b2 ≠ [])
    (hsorted : List.Sorted (fun a b : Ev => a.ts ≤ b.ts) (b1 ++ b2))
    (hdiam1 : ∀ e1 ∈ b1, ∀ e2 ∈ b1, e2.ts - e1.ts ≤ 2000)
    (hdiam2 : ∀ e1 ∈ b2, ∀ e2 ∈ b2, e2.ts - e1.ts ≤ 2000)
    (hm1 : (b1.map Ev.ts).max? = some tm1)
    (hm2 : (b2.map Ev.ts).max? = some tm2)
    (hgap : ∀ e1 ∈ b1, ∀ e2 ∈ b2, e1.ts + 2000 < e2.ts)
    (hcov1 : ∀ d ∈ uniqueIds (b1 ++ b2), ∃ e ∈ b1, e.id = d)
    (hcov2 : ∀ d ∈ uniqueIds (b1 ++ b2), ∃ e ∈ b2, e.id = d) :
    consensusTimes (b1 ++ b2) = [tm1, tm2] := by
  have hdecomp := List.pairwise_append.mp hsorted
  have hw1 : ∀ ev ∈ b1, windowEvents (b1 ++ b2) ev.ts (ev.ts + 2000)
      = windowEvents b1 ev.ts (ev.ts + 2000) := by
    intro ev hev
    rw [windowEvents_append]
    have hnil : windowEvents b2 ev.ts (ev.ts + 2000) = [] := by
      apply windowEvents_eq_nil
      intro x hx hcon
      have hg := hgap ev hev x hx
      omega
    rw [hnil, List.append_nil]
  have hw2 : ∀ ev ∈ b2, windowEvents (b1 ++ b2) ev.ts (ev.ts + 2000)
      = windowEvents b2 ev.ts (ev.ts + 2000) := by
    intro ev hev
    rw [windowEvents_append]
    have hnil : windowEvents b1 ev.ts (ev.ts + 2000) = [] := by
      apply windowEvents_eq_nil
      intro x hx hcon
      have hg := hgap x hx ev hev
      omega
    rw [hnil, List.nil_append]
  obtain ⟨em1, hem1, hts1⟩ := List.mem_map.mp (int_max?_iff.mp hm1).1
  obtain ⟨em2, hem2, hts2⟩ := List.mem_map.mp (int_max?_iff.mp hm2).1
  have hneq : ¬ tm1 = tm2 := by
    have := hgap em1 hem1 em2 hem2
    omega
  obtain ⟨e0, r1, rfl⟩ := List.exists_cons_of_ne_nil h1
  obtain ⟨f0, r2, rfl⟩ := List.exists_cons_of_ne_nil h2
  rw [consensusTimes, List.Sorted.insertionSort_eq hsorted, List.foldl_append]
  have hwb1 : windowEvents (e0 :: r1) e0.ts (e0.ts + 2000) = e0 :: r1 := by
    apply windowEvents_eq_self
    intro x hx
    refine ⟨?_, ?_⟩
    · rcases List.mem_cons.mp hx with rfl | hx'
      · exact le_refl _
      · exact (List.pairwise_cons.mp hdecomp.1).1 x hx'
    · have := hdiam1 e0 (List.mem_cons_self e0 r1) x hx
      omega
  have hwb2 : windowEvents (f0 :: r2) f0.ts (f0.ts + 2000) = f0 :: r2 := by
    apply windowEvents_eq_self
    intro x hx
    refine ⟨?_, ?_⟩
    · rcases List.mem_cons.mp hx with rfl | hx'
      · exact le_refl _
      · exact (List.pairwise_cons.mp hdecomp.2.1).1 x hx'
    · have := hdiam2 f0 (List.mem_cons_self f0 r2) x hx
      omega
  have hpass1 : (uniqueIds ((e0 :: r1) ++ f0 :: r2)).all
      (fun d => ((windowEvents ((e0 :: r1) ++ f0 :: r2) e0.ts (e0.ts + 2000)).map
        Ev.id).contains d) = true := by
    rw [hw1 e0 (List.mem_cons_self e0 r1), hwb1]
    exact roster_pass hcov1
  have hmax1 : ((windowEvents ((e0 :: r1) ++ f0 :: r2) e0.ts (e0.ts + 2000)).map
      Ev.ts).max? = some tm1 := by
    rw [hw1 e0 (List.mem_cons_self e0 r1), hwb1]
    exact hm1
  have hinner : List.foldl (consensusStep ((e0 :: r1) ++ f0 :: r2)
      (uniqueIds ((e0 :: r1) ++ f0 :: r2))) [] (e0 :: r1) = [tm1] := by
    rw [List.foldl_cons, consensusStep_append hpass1 hmax1 (Or.inl rfl), List.nil_append]
    apply foldl_consensusStep_const (show ([tm1] : List Int).getLast? = some tm1 from rfl) r1
    intro ev hev
    rw [hw1 ev (List.mem_cons_of_mem e0 hev)]
    exact window_max ev (List.mem_cons_of_mem e0 hev) hdiam1 hm1
  rw [hinner, List.foldl_cons]
  have hpass2 : (uniqueIds ((e0 :: r1) ++ f0 :: r2)).all
      (fun d => ((windowEvents ((e0 :: r1) ++ f0 :: r2) f0.ts (f0.ts + 2000)).map
        Ev.id).contains d) = true := by
    rw [hw2 f0 (List.mem_cons_self f0 r2), hwb2]
    exact roster_pass hcov2
  have hmax2 : ((windowEvents ((e0 :: r1) ++ f0 :: r2) f0.ts (f0.ts + 2000)).map
      Ev.ts).max? = some tm2 := by
    rw [hw2 f0 (List.mem_cons_self f0 r2), hwb2]
    exact hm2
  rw [consensusStep_append hpass2 hmax2 (Or.inr (by simpa using hneq)),
    List.singleton_append]
  exact foldl_consensusStep_const
    (show ([tm1, tm2] : List Int).getLast? = some tm2 from rfl) r2
    (fun ev hev => by
      rw [hw2 ev (List.mem_cons_of_mem f0 hev)]
      exact window_max ev (List.mem_cons_of_mem f0 hev) hdiam2 hm2)

/-- C2: if all registered devices (the id roster is derived from the
trace) report within one rolling 2-second span, exactly one consensus
entry is produced — carrying the full roster's aliases — and the
detection resets: a second full-roster burst, more than the window
length later, produces exactly one further independent entry. -/
theorem claim_C2 :
    (∀ (all : List Ev) (tm : Int) (statuses : String → Option String),
      all ≠ [] →
      List.Sorted (fun a b : Ev => a.ts ≤ b.ts) all →
      (∀ e1 ∈ all, ∀ e2 ∈ all, e2.ts - e1.ts ≤ 2000) →
      (all.map Ev.ts).max? = some tm →
      consensusTimes all = [tm] ∧
      consensusDevices all statuses = [(tm, (uniqueIds all).map (aliasOf statuses))]) ∧
    (∀ (b1 b2 : List Ev) (tm1 tm2 : Int),
      b1 ≠ [] → b2 ≠ [] →
      List.Sorted (fun a b : Ev => a.ts ≤ b.ts) (b1 ++ b2) →
      (∀ e1 ∈ b1, ∀ e2 ∈ b1, e2.ts - e1.ts ≤ 2000) →
      (∀ e1 ∈ b2, ∀ e2 ∈ b2, e2.ts - e1.ts ≤ 2000) →
      (b1.map Ev.ts).max? = some tm1 →
      (b2.map Ev.ts).max? = some tm2 →
      (∀ e1 ∈ b1, ∀ e2 ∈ b2, e1.ts + 2000 < e2.ts) →
      (∀ d ∈ uniqueIds (b1 ++ b2), ∃ e ∈ b1, e.id = d) →
      (∀ d ∈ uniqueIds (b1 ++ b2), ∃ e ∈ b2, e.id = d) →
      consensusTimes (b1 ++ b2) = [tm1, tm2]) := by
  constructor
  · intro all tm statuses hne hs hd hm
    have h := consensus_one_burst all tm hne hs hd hm
    refine ⟨h, ?_⟩
    rw [consensusDevices, h]
    rfl
  · intro b1 b2 tm1 tm2 h1 h2 hs hd1 hd2 hm1 hm2 hgap hc1 hc2
    exact consensus_two_burst b1 b2 tm1 tm2 h1 h2 hs hd1 hd2 hm1 hm2 hgap hc1 hc2

/-- Witness for C2: roster {A, B}; A at 0 ms and B at 1500 ms give
exactly one consensus entry at 1500 covering both aliases; a second
burst at 4000/5000 ms gives exactly the two entries 1500 and 5000. -/
theorem claim_C2_witness :
    consensusTimes [⟨"A", 0⟩, ⟨"B", 1500⟩] = [1500] ∧
    consensusDevices [⟨"A", 0⟩, ⟨"B", 1500⟩] (fun _ => none) =
      [(1500, (uniqueIds [⟨"A", 0⟩, ⟨"B", 1500⟩]).map (aliasOf (fun _ => none)))] ∧
    consensusTimes ([⟨"A", 0⟩, ⟨"B", 1500⟩] ++ [⟨"A", 4000⟩, ⟨"B", 5000⟩]) =
      [1500, 5000] :=
  have h1 := claim_C2.1 [⟨"A", 0⟩, ⟨"B", 1500⟩] 1500 (fun _ => none)
    (by decide) (by decide) (by decide) (by decide)
  have h2 := claim_C2.2 [⟨"A", 0⟩, ⟨"B", 1500⟩] [⟨"A", 4000⟩, ⟨"B", 5000⟩] 1500 5000
    (by decide) (by decide) (by decide) (by decide) (by decide) (by decide)
    (by decide) (by decide) (by decide) (by decide)
  ⟨h1.1, h1.2, h2⟩

/-! ## Reading the event log back

The repository's reader of the on-disk log (`/api/events`, the Event
Store `read_all()`) is not among the source files; per the spec it
parses the newline-delimited log line by line and skips unparseable
lines.  It is modelled here, at the level of characters, over the line
format that the src writer (`mkLine`) actually produces. -/

/-- The `" level="` field separator, as characters. -/
def lvlTail : List Char := ['l', 'e', 'v', 'e', 'l', '=']

def lvlSep : List Char := ' ' :: lvlTail

/-- The `" deltaG="` field separator, as characters. -/
def dgTail : List Char := ['d', 'e', 'l', 't', 'a', 'G', '=']

def dgSep : List Char := ' ' :: dgTail

/-- Split at the first occurrence of `sep`, returning the pieces before
and after it; `none` when `sep` does not occur. -/
def splitFirst (sep : List Char) : List Char → Option (List Char × List Char)
  | [] => none
  | c :: cs =>
    if sep.isPrefixOf (c :: cs) then some ([], (c :: cs).drop sep.length)
    else
      match splitFirst sep cs with
      | some (a, b) => some (c :: a, b)
      | none => none

/-- Modelled from the spec: parsing one log line back into its
timestamp, level and deltaG fields ("each line independently
parseable", §6), for the `<ts> level=<l> deltaG=<d>` format the src
writer produces. -/
def parseLine (cs : List Char) : Option (List Char × List Char × List Char) :=
  match splitFirst lvlSep cs with
  | none => none
  | some (ts, rest) =>
    match splitFirst dgSep rest with
    | none => none
    | some (l, d) => some (ts, l, d)

/-- One step of the newline splitter. -/
def lineBreak (c : Char) (acc : List (List Char)) : List (List Char) :=
  if c = '\n' then [] :: acc
  else
    match acc with
    | [] => [[c]]
    | a :: as => (c :: a) :: as

/-- The file's newline-delimited framing. -/
def splitLines (cs : List Char) : List (List Char) := cs.foldr lineBreak []

/-- Modelled from the spec: `read_all()` — every record in write order,
with corrupt/unparseable lines skipped, not fatal (§4.1, §6). -/
def readAllChars (cs : List Char) : List (List Char × List Char × List Char) :=
  (splitLines cs).filterMap parseLine

def readAll (log : String) : List (List Char × List Char × List Char) :=
  readAllChars log.data

/-- One rendered line, as the src writer lays it out. -/
def lineChars (r : List Char × List Char × List Char) : List Char :=
  r.1 ++ lvlSep ++ r.2.1 ++ dgSep ++ r.2.2

/-- Well-formed record fields: no space in the timestamp or level (the
ISO timestamp and the three severities have none), no newline
anywhere. -/
abbrev wfRec (r : List Char × List Char × List Char) : Prop :=
  ' ' ∉ r.1 ∧ '\n' ∉ r.1 ∧ ' ' ∉ r.2.1 ∧ '\n' ∉ r.2.1 ∧ '\n' ∉ r.2.2

/-- The log produced by appending each record on its own line. -/
def renderLog (rs : List (List Char × List Char × List Char)) : List Char :=
  (rs.map (fun r => lineChars r ++ ['\n'])).flatten

theorem isPrefixOf_append_self (s t : List Char) : s.isPrefixOf (s ++ t) = true := by
  induction s with
  | nil => simp [List.isPrefixOf]
  | cons c cs ih => simp [List.isPrefixOf, ih]

/-- `splitFirst` finds the boundary occurrence when the prefix has no
space and the separator starts with one. -/
theorem splitFirst_boundary (s' a b : List Char) (hna : ' ' ∉ a) :
    splitFirst (' ' :: s') (a ++ ' ' :: (s' ++ b)) = some (a, b) := by
  induction a with
  | nil =>
    rw [List.nil_append, splitFirst]
    have hc : (' ' :: s').isPrefixOf (' ' :: (s' ++ b)) = true :=
      isPrefixOf_append_self (' ' :: s') b
    rw [if_pos hc]
    have hd : List.drop (' ' :: s').length (' ' :: (s' ++ b)) = b :=
      List.drop_left (' ' :: s') b
    rw [hd]
  | cons x a' ih =>
    have hx : ¬ (' ' == x) = true := by
      simp only [beq_iff_eq]
      intro hh
      exact hna (hh ▸ List.mem_cons_self x a')
    rw [List.cons_append, splitFirst, if_neg (by simp [List.isPrefixOf, hx]),
      ih (fun hmem => hna (List.mem_cons_of_mem x hmem))]

theorem parseLine_fields (ts l d : List Char) (hts : ' ' ∉ ts) (hl : ' ' ∉ l) :
    parseLine (ts ++ lvlSep ++ l ++ dgSep ++ d) = some (ts, l, d) := by
  have h1 : splitFirst lvlSep (ts ++ lvlSep ++ l ++ dgSep ++ d)
      = some (ts, l ++ dgSep ++ d) := by
    have he : ts ++ lvlSep ++ l ++ dgSep ++ d
        = ts ++ ' ' :: (lvlTail ++ (l ++ dgSep ++ d)) := by
      simp [lvlSep, List.append_assoc]
    rw [he]
    exact splitFirst_boundary lvlTail ts (l ++ dgSep ++ d) hts
  have h2 : splitFirst dgSep (l ++ dgSep ++ d) = some (l, d) := by
    have he : l ++ dgSep ++ d = l ++ ' ' :: (dgTail ++ d) := by
      simp [dgSep, List.append_assoc]
    rw [he]
    exact splitFirst_boundary dgTail l d hl
  simp only [parseLine, h1, h2]

theorem foldr_lineBreak_noNl (l a : List Char) (as : List (List Char))
    (hnl : '\n' ∉ l) :
    l.foldr lineBreak (a :: as) = (l ++ a) :: as := by
  induction l with
  | nil => simp
  | cons c l' ih =>
    have hc : ¬ c = '\n' := fun hh => hnl (hh ▸ List.mem_cons_self c l')
    rw [List.foldr_cons, ih (fun hmem => hnl (List.mem_cons_of_mem c hmem))]
    simp [lineBreak, hc]

theorem splitLines_line (l rest : List Char) (hnl : '\n' ∉ l) :
    splitLines (l ++ '\n' :: rest) = l :: splitLines rest := by
  rw [splitLines, List.foldr_append]
  have hstep : List.foldr lineBreak [] ('\n' :: rest)
      = [] :: List.foldr lineBreak [] rest := by
    rw [List.foldr_cons]
    simp [lineBreak]
  rw [hstep, foldr_lineBreak_noNl l [] _ hnl, List.append_nil]
  rfl

theorem noNl_lineChars (r : List Char × List Char × List Char) (h : wfRec r) :
    '\n' ∉ lineChars r := by
  intro hmem
  simp only [lineChars, List.mem_append] at hmem
  rcases hmem with ((((h1 | h2) | h3) | h4) | h5)
  · exact h.2.1 h1
  · exact absurd h2 (by decide)
  · exact h.2.2.2.1 h3
  · exact absurd h4 (by decide)
  · exact h.2.2.2.2 h5

theorem splitLines_renderLog (rs : List (List Char × List Char × List Char))
    (tail : List Char) (h : ∀ r ∈ rs, wfRec r) :
    splitLines (renderLog rs ++ tail) = rs.map lineChars ++ splitLines tail := by
  induction rs with
  | nil => simp [renderLog]
  | cons r rs' ih =>
    have he : renderLog (r :: rs') ++ tail
        = lineChars r ++ '\n' :: (renderLog rs' ++ tail) := by
      simp [renderLog, List.append_assoc]
    rw [he, splitLines_line _ _ (noNl_lineChars r (h r (List.mem_cons_self r rs'))),
      ih (fun r' hr' => h r' (List.mem_cons_of_mem r hr'))]
    rfl

theorem filterMap_parse (rs : List (List Char × List Char × List Char))
    (h : ∀ r ∈ rs, wfRec r) :
    (rs.map lineChars).filterMap parseLine = rs := by
  induction rs with
  | nil => rfl
  | cons r rs' ih =>
    have hr := h r (List.mem_cons_self r rs')
    have hp : parseLine (lineChars r) = some r := by
      have := parseLine_fields r.1 r.2.1 r.2.2 hr.1 hr.2.2.1
      simpa [lineChars] using this
    rw [List.map_cons, List.filterMap_cons, hp,
      ih (fun r' hr' => h r' (List.mem_cons_of_mem r hr'))]

/-- C8: each line the src writer appends parses back into its
timestamp, level and deltaG fields; a log of appended records reads
back as exactly those records in write order; and an unparseable line
in the middle is skipped rather than failing the read. -/
theorem claim_C8 :
    (∀ (ts : String) (level delta : JValue),
      ' ' ∉ ts.data → '\n' ∉ ts.data →
      ' ' ∉ (pyStr level).data → '\n' ∉ (pyStr level).data →
      '\n' ∉ (pyStr delta).data →
      readAll (mkLine ts level delta)
        = [(ts.data, (pyStr level).data, (pyStr delta).data)]) ∧
    (∀ rs : List (List Char × List Char × List Char),
      (∀ r ∈ rs, wfRec r) → readAllChars (renderLog rs) = rs) ∧
    (∀ (rs1 rs2 : List (List Char × List Char × List Char)) (bad : List Char),
      (∀ r ∈ rs1, wfRec r) → (∀ r ∈ rs2, wfRec r) →
      '\n' ∉ bad → parseLine bad = none →
      readAllChars (renderLog rs1 ++ bad ++ '\n' :: renderLog rs2) = rs1 ++ rs2) := by
  have hone : ∀ rs : List (List Char × List Char × List Char),
      (∀ r ∈ rs, wfRec r) → readAllChars (renderLog rs) = rs := by
    intro rs h
    rw [readAllChars, show renderLog rs = renderLog rs ++ [] from (List.append_nil _).symm,
      splitLines_renderLog rs [] h]
    rw [show splitLines [] = [] from rfl, List.append_nil]
    exact filterMap_parse rs h
  refine ⟨?_, hone, ?_⟩
  · intro ts level delta h1 h2 h3 h4 h5
    have hline : (mkLine ts level delta).data
        = lineChars (ts.data, (pyStr level).data, (pyStr delta).data) ++ '\n' :: [] := by
      simp [mkLine, String.data_append, lineChars, lvlSep, lvlTail, dgSep, dgTail,
        List.append_assoc]
    rw [readAll, hline, readAllChars,
      splitLines_line _ _ (noNl_lineChars _ ⟨h1, h2, h3, h4, h5⟩)]
    rw [show splitLines [] = [] from rfl]
    have hp : parseLine (lineChars (ts.data, (pyStr level).data, (pyStr delta).data))
        = some (ts.data, (pyStr level).data, (pyStr delta).data) := by
      have := parseLine_fields ts.data (pyStr level).data (pyStr delta).data h1 h3
      simpa [lineChars] using this
    rw [List.filterMap_cons, hp]
    rfl
  · intro rs1 rs2 bad hw1 hw2 hbadnl hbadparse
    rw [readAllChars, List.append_assoc, splitLines_renderLog rs1 _ hw1,
      splitLines_line bad _ hbadnl,
      show renderLog rs2 = renderLog rs2 ++ [] from (List.append_nil _).symm,
      splitLines_renderLog rs2 [] hw2]
    rw [show splitLines [] = [] from rfl, List.append_nil]
    rw [List.filterMap_append, filterMap_parse rs1 hw1, List.filterMap_cons, hbadparse,
      filterMap_parse rs2 hw2]

/-- Witness for C8: a concrete written line round-trips, and a corrupt
line between two records is skipped. -/
theorem claim_C8_witness :
    readAll (mkLine "2025-01-01T00:00:00Z" (JValue.str "minor") (JValue.num 1))
      = [(("2025-01-01T00:00:00Z" : String).data, (pyStr (JValue.str "minor")).data,
          (pyStr (JValue.num 1)).data)] ∧
    readAllChars (renderLog [(['T'], ['m'], ['1'])] ++ ['g', 'a', 'r', 'b', 'a', 'g', 'e']
        ++ '\n' :: renderLog [(['U'], ['s'], ['2'])])
      = [(['T'], ['m'], ['1'])] ++ [(['U'], ['s'], ['2'])] :=
  ⟨claim_C8.1 "2025-01-01T00:00:00Z" (JValue.str "minor") (JValue.num 1)
      (by decide) (by decide) (by decide) (by decide) (by decide),
    claim_C8.2.2 [(['T'], ['m'], ['1'])] [(['U'], ['s'], ['2'])]
      ['g', 'a', 'r', 'b', 'a', 'g', 'e']
      (by decide) (by decide) (by decide) (by decide)⟩

end Seismo


